import Mathlib

/-
Verification of the reproducible core of the intervals-icu-mcp server:
the response-envelope builder, the fitness / ramp-rate classifiers, the
peak-effort curve matcher, the pace/GAP histogram formatter, the
reference-relative activity positioner, the tool-boundary error handling,
and the wellness output shaping.

The Python sources are shallowly embedded: real numbers coming from the
API are modelled as rationals, Python `int()` truncation and `round(x, 1)`
banker rounding are modelled explicitly, optional/absent JSON fields are
modelled with `Option`, and dict construction is modelled as ordered
association lists keyed by strings.
-/

namespace IcuMcp

/-! ## JSON values

A minimal JSON value model.  Objects are ordered association lists, which
matches Python dict insertion order (all dicts built by the tools use
distinct keys). -/

inductive Json where
  | null : Json
  | bool (b : Bool) : Json
  | num (q : ℚ) : Json
  | str (s : String) : Json
  | arr (xs : List Json) : Json
  | obj (fields : List (String × Json)) : Json

/-- Keys of a JSON object (empty for non-objects). -/
def jsonKeys : Json → List String
  | .obj fields => fields.map Prod.fst
  | _ => []

/-- Lookup of a key in a JSON object (first occurrence). -/
def jsonLookup (key : String) : Json → Option Json
  | .obj fields => (fields.find? (fun f => f.1 = key)).map Prod.snd
  | _ => none

/-- Escape of one character for JSON string rendering (quote and
backslash only; the strings produced by the tools contain no control
characters). -/
def escapeChar (c : Char) : String :=
  if c = '"' then "\\\"" else if c = '\\' then "\\\\" else String.singleton c

/-- Rendering of a JSON string literal. -/
def renderString (s : String) : String :=
  "\"" ++ String.join (s.toList.map escapeChar) ++ "\""

mutual

/-- Rendering of a JSON value to text, modelling `json.dumps` with the
default separators (numbers with denominator 1 render as integers). -/
def renderJson : Json → String
  | .null => "null"
  | .bool b => if b then "true" else "false"
  | .num q => if q.den = 1 then toString q.num else toString q
  | .str s => renderString s
  | .arr xs => "[" ++ renderJsonList xs ++ "]"
  | .obj fields => "\x7b" ++ renderJsonFields fields ++ "\x7d"

/-- Rendering of a JSON array body. -/
def renderJsonList : List Json → String
  | [] => ""
  | [x] => renderJson x
  | x :: xs => renderJson x ++ ", " ++ renderJsonList xs

/-- Rendering of a JSON object body. -/
def renderJsonFields : List (String × Json) → String
  | [] => ""
  | [f] => renderString f.1 ++ ": " ++ renderJson f.2
  | f :: fs => renderString f.1 ++ ": " ++ renderJson f.2 ++ ", " ++ renderJsonFields fs

end

/-! ## Response envelope builder

Modelled from the spec: the module `response_builder.py`
(`ResponseBuilder.build_response` / `ResponseBuilder.build_error_response`)
is not present under `src/`; the definitions below follow spec section 4.1
and section 3: `data` is always included; `analysis` and `metadata` are
included only when supplied and non-empty; `query_type` is included when
supplied; the error envelope holds `error`, `error_type` and, when
supplied and non-empty, `suggestions`. -/

/-- Modelled from the spec: `ResponseBuilder.build_response`
(success-envelope builder, spec section 4.1), producing the envelope as a
JSON object before serialization. -/
def buildSuccessEnvelope (data : Json) (analysis : Option (List (String × Json)))
    (metadata : Option (List (String × Json))) (queryType : Option String) : Json :=
  Json.obj
    ([("data", data)]
      ++ (match analysis with
          | some l => if l.isEmpty then [] else [("analysis", Json.obj l)]
          | none => [])
      ++ (match metadata with
          | some l => if l.isEmpty then [] else [("metadata", Json.obj l)]
          | none => [])
      ++ (match queryType with
          | some s => [("query_type", Json.str s)]
          | none => []))

/-- Modelled from the spec: `ResponseBuilder.build_error_response`
(error-envelope builder, spec section 4.1), producing the envelope as a
JSON object before serialization. -/
def buildErrorEnvelope (message : String) (errorType : String)
    (suggestions : Option (List String)) : Json :=
  Json.obj
    ([("error", Json.str message), ("error_type", Json.str errorType)]
      ++ (match suggestions with
          | some l => if l.isEmpty then [] else [("suggestions", Json.arr (l.map Json.str))]
          | none => []))

/-- Modelled from the spec: serialized form of `build_success` (the tool
functions return the envelope as a JSON text string). -/
def buildSuccessResponse (data : Json) (analysis : Option (List (String × Json)))
    (metadata : Option (List (String × Json))) (queryType : Option String) : String :=
  renderJson (buildSuccessEnvelope data analysis metadata queryType)

/-- Modelled from the spec: serialized form of `build_error_response`. -/
def buildErrorResponse (message : String) (errorType : String)
    (suggestions : Option (List String)) : String :=
  renderJson (buildErrorEnvelope message errorType suggestions)

/-! ## Python semantics helpers -/

/-- Python `int()` applied to a real number: truncation toward zero. -/
def pyInt (q : ℚ) : ℤ :=
  if 0 ≤ q then ⌊q⌋ else ⌈q⌉

/-- Python `f"\x7b n :02d\x7d"`: decimal rendering zero-padded to two
digits. -/
def pad2 (n : ℤ) : String :=
  if 0 ≤ n ∧ n < 10 then "0" ++ toString n else toString n

/-- Nearest integer with ties to even, the rounding mode of Python
`round`. -/
def roundHalfEven (q : ℚ) : ℤ :=
  if q - ⌊q⌋ < 1 / 2 then ⌊q⌋
  else if 1 / 2 < q - ⌊q⌋ then ⌊q⌋ + 1
  else if ⌊q⌋ % 2 = 0 then ⌊q⌋ else ⌊q⌋ + 1

/-- Python `round(x, 1)`. -/
def pyRound1 (q : ℚ) : ℚ :=
  (roundHalfEven (q * 10) : ℚ) / 10

/-- Python truthiness of an optional numeric field: `None` and `0` are
falsy, every other number is truthy. -/
def pyTruthy (o : Option ℚ) : Bool :=
  match o with
  | none => false
  | some q => decide (q ≠ 0)

/-! ## Histogram bins and pace formatting

Embedded from `tools/activity_analysis.py`: `get_pace_histogram`
(lines 524-540) and `get_gap_histogram` (lines 595-611) decompose each bin
bound with `int()` truncation and render it as minutes:seconds text. -/

/-- Raw histogram bin as delivered by the upstream API (spec section 3). -/
structure HistogramBin where
  min : ℚ
  max : ℚ
  count : ℕ
  secs : Option ℚ
deriving DecidableEq

/-- Pace bound formatting shared by `get_pace_histogram` and
`get_gap_histogram` (`minutes = int(v)`,
`seconds = int((v - minutes) * 60)`, rendered with a two-digit seconds
component and the literal suffix). -/
def formatPaceValue (v : ℚ) : String :=
  let minutes := pyInt v
  let secondsPart := pyInt ((v - minutes) * 60)
  toString minutes ++ ":" ++ pad2 secondsPart ++ " /km"

/-- The `pace_range` object built for one bin by `get_pace_histogram`. -/
def paceRangeObj (b : HistogramBin) : Json :=
  Json.obj
    [("min_pace_min_per_km", Json.num b.min),
     ("max_pace_min_per_km", Json.num b.max),
     ("min_pace_formatted", Json.str (formatPaceValue b.min)),
     ("max_pace_formatted", Json.str (formatPaceValue b.max))]

/-- The `gap_range` object built for one bin by `get_gap_histogram`. -/
def gapRangeObj (b : HistogramBin) : Json :=
  Json.obj
    [("min_gap_min_per_km", Json.num b.min),
     ("max_gap_min_per_km", Json.num b.max),
     ("min_gap_formatted", Json.str (formatPaceValue b.min)),
     ("max_gap_formatted", Json.str (formatPaceValue b.max))]

/-- The `bin_data` entry built for one bin by `get_pace_histogram`. -/
def paceBinData (b : HistogramBin) : List (String × Json) :=
  [("pace_range", paceRangeObj b), ("count", Json.num b.count)]
    ++ (match b.secs with
        | some s => [("time_seconds", Json.num s)]
        | none => [])

/-- The `bin_data` entry built for one bin by `get_gap_histogram`. -/
def gapBinData (b : HistogramBin) : List (String × Json) :=
  [("gap_range", gapRangeObj b), ("count", Json.num b.count)]
    ++ (match b.secs with
        | some s => [("time_seconds", Json.num s)]
        | none => [])

/-! ## Fitness-status and ramp-rate classifiers

Embedded from `tools/athlete.py`.  The same threshold ladder appears in
`get_athlete_profile` (lines 85-123) and `get_fitness_summary`
(lines 203-242); the two sites differ only in the wording of the
description strings, so the embedding uses the `get_athlete_profile`
wording and the claims are stated about the status component. -/

/-- Form classification ladder from `get_athlete_profile`
(`tools/athlete.py` lines 85-100): status and description derived from
TSB. -/
def classifyForm (tsb : ℚ) : String × String :=
  if tsb > 20 then ("very_fresh", "Very fresh - good for racing")
  else if tsb > 5 then ("recovered", "Recovered and ready for hard training")
  else if tsb > -10 then ("optimal", "Optimal zone - productive training possible")
  else if tsb > -30 then ("fatigued", "Accumulating fatigue - recovery may be needed")
  else ("very_fatigued", "High fatigue - prioritize recovery")

/-- Ramp-rate classification ladder from `get_athlete_profile`
(`tools/athlete.py` lines 102-123): status and message derived from the
ramp rate. -/
def classifyRampRate (rampRate : ℚ) : String × String :=
  if rampRate > 8 then ("high_risk", "Fitness increasing too fast - reduce training load")
  else if rampRate > 5 then ("caution", "Fitness increasing rapidly - monitor fatigue closely")
  else if rampRate > 0 then ("good", "Sustainable fitness gain")
  else if rampRate > -5 then ("declining", "Fitness slightly declining (taper/recovery)")
  else ("declining_significantly", "Fitness declining significantly")

/-- Statement of claim C2 for one histogram bin with non-negative bounds:
each bound is decomposed by truncation (which on non-negative values is
the floor), the seconds component always stays in 0..59 (never rounding
up to the next minute), the formatted text is embedded in the
`pace_range` / `gap_range` objects, and the two concrete examples from
the spec hold. -/
def PaceBinSpec (b : HistogramBin) : Prop :=
  (formatPaceValue b.min =
      toString ⌊b.min⌋ ++ ":" ++ pad2 ⌊(b.min - ⌊b.min⌋) * 60⌋ ++ " /km")
    ∧ (formatPaceValue b.max =
      toString ⌊b.max⌋ ++ ":" ++ pad2 ⌊(b.max - ⌊b.max⌋) * 60⌋ ++ " /km")
    ∧ (0 ≤ ⌊(b.min - ⌊b.min⌋) * 60⌋ ∧ ⌊(b.min - ⌊b.min⌋) * 60⌋ ≤ 59)
    ∧ (0 ≤ ⌊(b.max - ⌊b.max⌋) * 60⌋ ∧ ⌊(b.max - ⌊b.max⌋) * 60⌋ ≤ 59)
    ∧ jsonLookup "min_pace_formatted" (paceRangeObj b)
        = some (Json.str (formatPaceValue b.min))
    ∧ jsonLookup "max_pace_formatted" (paceRangeObj b)
        = some (Json.str (formatPaceValue b.max))
    ∧ jsonLookup "min_gap_formatted" (gapRangeObj b)
        = some (Json.str (formatPaceValue b.min))
    ∧ jsonLookup "max_gap_formatted" (gapRangeObj b)
        = some (Json.str (formatPaceValue b.max))
    ∧ formatPaceValue (9 / 2) = "4:30 /km"
    ∧ formatPaceValue (3999 / 1000) = "3:59 /km"

/-! ## Tool boundary error handling

Embedded from the `try/except` tails of the tool functions.  Every tool
converts an `ICUAPIError` to an `api_error` envelope with its message
passed through verbatim.  The catch-all for other exceptions comes in two
variants: the tools outside `gear.py` (for example `tools/curves.py`
lines 176-181, `tools/wellness.py` lines 180-185, `tools/activities.py`
lines 841-846) emit `internal_error` with the message prefixed by
`Unexpected error: `, while the six tools of `tools/gear.py` (lines
103-106, 168-171, 256-259, 289-292, 360-363, 438-441) emit
`unexpected_error` with `str(e)` unprefixed. -/

/-- Exception leaving a tool body: a classified API error carrying a
message, or any other exception (represented by its `str(e)` text). -/
inductive ToolExn where
  | icuApiError (message : String) : ToolExn
  | other (message : String) : ToolExn

/-- The tool boundary of the tools outside `gear.py`: a body outcome
(normal return or exception) converted to the string the tool call
returns, with the `internal_error` catch-all. -/
def runToolExcept (body : Except ToolExn String) : String :=
  match body with
  | .ok s => s
  | .error (.icuApiError m) => buildErrorResponse m "api_error" none
  | .error (.other m) => buildErrorResponse ("Unexpected error: " ++ m) "internal_error" none

/-- The tool boundary of the six `gear.py` tools: identical api_error
branch, but the catch-all emits `unexpected_error` with the plain
`str(e)` text. -/
def runToolExceptGear (body : Except ToolExn String) : String :=
  match body with
  | .ok s => s
  | .error (.icuApiError m) => buildErrorResponse m "api_error" none
  | .error (.other m) => buildErrorResponse m "unexpected_error" none

/-! ## Input validation preludes

Embedded from `update_wellness` (`tools/wellness.py` lines 385-427) and
`get_hr_curves` (`tools/curves.py` lines 40-71).  A tool body is modelled
up to the point where the API client would be entered: it either returns
early (validation failure) or reaches the client call. -/

/-- Python `str.lower()` for the ASCII strings the tools compare. -/
def pyLower (s : String) : String :=
  String.mk (s.toList.map Char.toLower)

/-- Split of a character list at every dash, keeping empty groups. -/
def splitDashes : List Char → List (List Char)
  | [] => [[]]
  | c :: rest =>
    if c = '-' then [] :: splitDashes rest
    else
      match splitDashes rest with
      | g :: gs => (c :: g) :: gs
      | [] => [[c]]

/-- Decimal value of a digit list. -/
def digitsVal (cs : List Char) : ℕ :=
  cs.foldl (fun a c => a * 10 + (c.toNat - 48)) 0

/-- Gregorian leap-year rule used by `datetime`. -/
def isLeapYear (y : ℕ) : Bool :=
  y % 4 == 0 && (y % 100 != 0 || y % 400 == 0)

/-- Number of days of a month as validated by the `datetime`
constructor. -/
def daysInMonth (y m : ℕ) : ℕ :=
  if m = 2 then (if isLeapYear y then 29 else 28)
  else if m = 4 ∨ m = 6 ∨ m = 9 ∨ m = 11 then 30
  else 31

/-- Model of `datetime.strptime(date, "%Y-%m-%d")` succeeding: exactly
two dashes, a four-digit year of at least 1, a one- or two-digit month in
1..12, and a one- or two-digit day in 1..days-in-month. -/
def strptimeYmdOk (s : String) : Bool :=
  match splitDashes s.toList with
  | [y, m, d] =>
    (y.length == 4) && y.all Char.isDigit
      && (m.length == 1 || m.length == 2) && m.all Char.isDigit
      && (d.length == 1 || d.length == 2) && d.all Char.isDigit
      && decide (1 ≤ digitsVal y)
      && decide (1 ≤ digitsVal m) && decide (digitsVal m ≤ 12)
      && decide (1 ≤ digitsVal d)
      && decide (digitsVal d ≤ daysInMonth (digitsVal y) (digitsVal m))
  | _ => false

/-- Caller-supplied optional fields of `update_wellness`
(`tools/wellness.py` lines 340-354). -/
structure UpdateWellnessArgs where
  weight : Option ℚ
  restingHr : Option ℤ
  hrv : Option ℚ
  sleepSecs : Option ℤ
  sleepQuality : Option ℤ
  fatigue : Option ℤ
  soreness : Option ℤ
  stress : Option ℤ
  mood : Option ℤ
  motivation : Option ℤ
  readiness : Option ℚ
  comments : Option String
deriving DecidableEq

/-- The `update_wellness` call with no updatable field supplied. -/
def emptyUpdateWellnessArgs : UpdateWellnessArgs :=
  ⟨none, none, none, none, none, none, none, none, none, none, none, none⟩

/-- Payload fields accumulated by `update_wellness` (lines 398-421): one
entry per supplied argument, in source order. -/
def updateWellnessPayloadFields (a : UpdateWellnessArgs) : List (String × Json) :=
  (match a.weight with | some v => [("weight", Json.num v)] | none => [])
    ++ (match a.restingHr with | some v => [("restingHR", Json.num v)] | none => [])
    ++ (match a.hrv with | some v => [("hrv", Json.num v)] | none => [])
    ++ (match a.sleepSecs with | some v => [("sleepSecs", Json.num v)] | none => [])
    ++ (match a.sleepQuality with | some v => [("sleepQuality", Json.num v)] | none => [])
    ++ (match a.fatigue with | some v => [("fatigue", Json.num v)] | none => [])
    ++ (match a.soreness with | some v => [("soreness", Json.num v)] | none => [])
    ++ (match a.stress with | some v => [("stress", Json.num v)] | none => [])
    ++ (match a.mood with | some v => [("mood", Json.num v)] | none => [])
    ++ (match a.motivation with | some v => [("motivation", Json.num v)] | none => [])
    ++ (match a.readiness with | some v => [("readiness", Json.num v)] | none => [])
    ++ (match a.comments with | some v => [("comments", Json.str v)] | none => [])

/-- Progress of a tool body up to the API client boundary: either an
early return (the response string) or the client call about to be made
with its payload. -/
inductive UpdateWellnessStep where
  | earlyReturn (response : String) : UpdateWellnessStep
  | callApi (payload : List (String × Json)) : UpdateWellnessStep

/-- Validation prelude of `update_wellness` (lines 385-430): date-format
check, then the no-op check on a payload holding only the `id` key. -/
def updateWellnessPrelude (date : String) (a : UpdateWellnessArgs) : UpdateWellnessStep :=
  if strptimeYmdOk date = false then
    .earlyReturn (buildErrorResponse "Invalid date format. Please use YYYY-MM-DD format."
      "validation_error" none)
  else
    let wellnessData := ("id", Json.str date) :: updateWellnessPayloadFields a
    if wellnessData.length = 1 then
      .earlyReturn (buildErrorResponse
        "No wellness data provided. Please specify at least one metric to update."
        "validation_error" none)
    else
      .callApi wellnessData

/-- Progress of a curve tool body up to the API client boundary: either
an early return or the client call with the resolved look-back window
(`none` meaning all time) and period label. -/
inductive CurvesStep where
  | earlyReturn (response : String) : CurvesStep
  | callApi (oldestDaysBack : Option ℤ) (periodLabel : String) : CurvesStep

/-- Date-range prelude of `get_hr_curves` (`tools/curves.py`
lines 40-71); `get_power_curves` and `get_pace_curves` share it
verbatim. -/
def getHrCurvesPrelude (daysBack : Option ℤ) (timePeriod : Option String) : CurvesStep :=
  match daysBack with
  | some d => .callApi (some d) (toString d ++ "_days")
  | none =>
    match timePeriod with
    | some tp =>
      if tp = "" then .callApi (some 90) "90_days"
      else if pyLower tp = "week" then .callApi (some 7) "week"
      else if pyLower tp = "month" then .callApi (some 30) "month"
      else if pyLower tp = "year" then .callApi (some 365) "year"
      else if pyLower tp = "all" then .callApi none "all_time"
      else .earlyReturn (buildErrorResponse
        "Invalid time_period. Use \x27week\x27, \x27month\x27, \x27year\x27, or \x27all\x27"
        "validation_error" none)
    | none => .callApi (some 90) "90_days"

/-- Statement of claim C9: malformed caller input (bad date, invalid
time_period enum value, update with zero fields) produces a
validation_error envelope before the API client is reached, and the
client is reached only when the date validation passed. -/
def ValidationBeforeApiSpec : Prop :=
  (∀ (date : String) (a : UpdateWellnessArgs), strptimeYmdOk date = false →
      updateWellnessPrelude date a
        = .earlyReturn (buildErrorResponse "Invalid date format. Please use YYYY-MM-DD format."
            "validation_error" none))
    ∧ (∀ date : String, strptimeYmdOk date = true →
      updateWellnessPrelude date emptyUpdateWellnessArgs
        = .earlyReturn (buildErrorResponse
            "No wellness data provided. Please specify at least one metric to update."
            "validation_error" none))
    ∧ (∀ tp : String, tp ≠ "" → pyLower tp ≠ "week" → pyLower tp ≠ "month" →
        pyLower tp ≠ "year" → pyLower tp ≠ "all" →
      getHrCurvesPrelude none (some tp)
        = .earlyReturn (buildErrorResponse
            "Invalid time_period. Use \x27week\x27, \x27month\x27, \x27year\x27, or \x27all\x27"
            "validation_error" none))
    ∧ (∀ (date : String) (a : UpdateWellnessArgs) (p : List (String × Json)),
      updateWellnessPrelude date a = .callApi p → strptimeYmdOk date = true)

/-! ## Peak-effort curve matcher

Embedded from `get_power_curves` (`tools/performance.py` lines 85-119),
`get_hr_curves` (`tools/curves.py` lines 85-119) and `get_pace_curves`
(`tools/curves.py` lines 258-297).  All three run the same loop: for each
key duration, `min(data, key=lambda p: abs(p.secs - seconds),
default=None)` picks the closest curve point and the label is recorded
only when the point is within 10 percent of the target duration.  The
effort payloads differ per tool (watts / bpm / pace) and are not part of
the matching logic; the matcher is modelled as the association of labels
to selected points. -/

/-- Raw curve point (spec section 3); `value` stands for the metric
column (watts, bpm or pace minutes-per-km) of the respective curve. -/
structure CurvePoint where
  secs : ℚ
  value : Option ℚ
  date : Option String
  srcActivityId : Option String
deriving DecidableEq

/-- Python `min` with a key function over a non-empty iterator: running
minimum that keeps the earlier element on ties. -/
def pyMinAux {α : Type} (key : α → ℚ) (best : α) : List α → α
  | [] => best
  | y :: ys => if key y < key best then pyMinAux key y ys else pyMinAux key best ys

/-- Python `min(iterable, key=..., default=None)`. -/
def pyMin {α : Type} (l : List α) (key : α → ℚ) : Option α :=
  match l with
  | [] => none
  | x :: xs => some (pyMinAux key x xs)

/-- The `closest_point` computation of the three curve tools. -/
def closestPoint (data : List CurvePoint) (target : ℚ) : Option CurvePoint :=
  pyMin data (fun p => |p.secs - target|)

/-- The `peak_efforts` mapping: for each `(seconds, label)` pair the
closest point is accepted only within the 10 percent tolerance; the
labels of the key-duration tables are distinct, so the dict built by the
source coincides with this association list. -/
def peakEfforts (keyDurations : List (ℚ × String)) (data : List CurvePoint) :
    List (String × CurvePoint) :=
  keyDurations.filterMap (fun sd =>
    match closestPoint data sd.1 with
    | some cp => if |cp.secs - sd.1| ≤ sd.1 * (1 / 10) then some (sd.2, cp) else none
    | none => none)

/-- Key durations of `get_power_curves` (`tools/performance.py`
lines 86-96). -/
def powerKeyDurations : List (ℚ × String) :=
  [(5, "5_sec"), (15, "15_sec"), (30, "30_sec"), (60, "1_min"), (120, "2_min"),
   (300, "5_min"), (600, "10_min"), (1200, "20_min"), (3600, "1_hour")]

/-- Key durations of `get_hr_curves` (`tools/curves.py` lines 86-96),
identical to the power table. -/
def hrKeyDurations : List (ℚ × String) :=
  [(5, "5_sec"), (15, "15_sec"), (30, "30_sec"), (60, "1_min"), (120, "2_min"),
   (300, "5_min"), (600, "10_min"), (1200, "20_min"), (3600, "1_hour")]

/-- Key durations of `get_pace_curves` (`tools/curves.py`
lines 259-268). -/
def paceKeyDurations : List (ℚ × String) :=
  [(60, "400m_equivalent"), (180, "1km_equivalent"), (300, "5_min"), (600, "10_min"),
   (900, "15_min"), (1200, "20_min"), (1800, "30_min"), (3600, "1_hour")]

/-- Statement of claim C1 for one curve and one key-duration pair: the
matcher selects a point of the curve minimizing the distance of its
duration to the target, ties broken by the first minimal element in
input order, and the label appears in the peak-efforts mapping exactly
when the selected point is within the 10 percent relative tolerance. -/
def PeakEffortSpec (data : List CurvePoint) (kd : List (ℚ × String))
    (target : ℚ) (label : String) : Prop :=
  ∃ best : CurvePoint,
    closestPoint data target = some best
      ∧ best ∈ data
      ∧ (∀ p ∈ data, |best.secs - target| ≤ |p.secs - target|)
      ∧ (∃ pre post, data = pre ++ best :: post
          ∧ ∀ p ∈ pre, |best.secs - target| < |p.secs - target|)
      ∧ ((label ∈ (peakEfforts kd data).map Prod.fst)
          ↔ |best.secs - target| ≤ target * (1 / 10))

/-- Two-point demonstration curve from spec section 8 (durations 58 s and
65 s). -/
def demoCurve : List CurvePoint :=
  [⟨58, some 172, none, none⟩, ⟨65, some 170, none, none⟩]

/-- One-point demonstration curve from spec section 8 (duration 40 s). -/
def demoCurveFar : List CurvePoint :=
  [⟨40, some 180, none, none⟩]

/-! ## Reference-relative activity positioner

Embedded from `get_activities_around` (`tools/activities.py`
lines 780-839): the fetched activities are sorted ascending by
`start_date_local`, the first index whose `id` equals the reference id is
located (if any), every entry is annotated relative to that index, and
aggregate counts are attached.  The source records carry further
presentation fields (name, distance, training load, ...) that the
positioning logic never consults; the embedding keeps the two fields it
reads. -/

/-- Activity summary as consumed by the positioner (spec section 3). -/
structure ActivitySummary where
  id : String
  start_date_local : String
deriving DecidableEq

/-- Positioning annotation attached to one activity entry
(`activity_item` of the source): absent dict keys are `none` /
`false`. -/
structure AnnotatedActivity where
  id : String
  start_date : String
  is_reference : Bool
  position : Option String
  days_before : Option ℕ
  days_after : Option ℕ
deriving DecidableEq

/-- Annotation of one entry at index `i` (`tools/activities.py`
lines 788-804). -/
def annotateActivity (refId : String) (refIndex : Option ℕ) (i : ℕ)
    (a : ActivitySummary) : AnnotatedActivity :=
  if a.id = refId then ⟨a.id, a.start_date_local, true, none, none, none⟩
  else
    match refIndex with
    | some r =>
      if i < r then ⟨a.id, a.start_date_local, false, some "before", some (r - i), none⟩
      else ⟨a.id, a.start_date_local, false, some "after", none, some (i - r)⟩
    | none => ⟨a.id, a.start_date_local, false, none, none, none⟩

/-- The `for i, activity in enumerate(activities)` annotation loop,
threading the running index. -/
def annotateAll (refId : String) (refIndex : Option ℕ) (i : ℕ) :
    List ActivitySummary → List AnnotatedActivity
  | [] => []
  | a :: rest => annotateActivity refId refIndex i a :: annotateAll refId refIndex (i + 1) rest

/-- The `next((i for i, a in enumerate(activities) if a.id ==
activity_id), None)` reference-index search. -/
def findRefIndex (refId : String) : List ActivitySummary → Option ℕ
  | [] => none
  | a :: rest => if a.id = refId then some 0 else (findRefIndex refId rest).map (· + 1)

/-- Comparison key of `activities.sort(key=lambda x:
x.start_date_local)`. -/
def dateLe (a b : ActivitySummary) : Bool :=
  decide (a.start_date_local ≤ b.start_date_local)

/-- The stable ascending sort by `start_date_local`. -/
def sortByDate (acts : List ActivitySummary) : List ActivitySummary :=
  acts.mergeSort dateLe

/-- Result assembled by `get_activities_around` (lines 825-834): the
annotated entries plus aggregate counts, which are attached only when the
reference entry was found. -/
structure AroundResult where
  activities : List AnnotatedActivity
  count : ℕ
  reference_position : Option ℕ
  activities_before : Option ℕ
  activities_after : Option ℕ

/-- The positioning core of `get_activities_around` on the fetched
activity list. -/
def getActivitiesAround (acts : List ActivitySummary) (refId : String) : AroundResult :=
  let sorted := sortByDate acts
  let refIndex := findRefIndex refId sorted
  { activities := annotateAll refId refIndex 0 sorted
    count := sorted.length
    reference_position := refIndex
    activities_before := refIndex
    activities_after := refIndex.map (fun r => sorted.length - r - 1) }

/-- Statement of claim C6 for an activity list containing the reference
entry: the sorted order is an ascending permutation of the input, the
reference index is located, the aggregates report the entries strictly
before and after, and each entry is annotated before / reference /
after according to its index. -/
def AroundRefSpec (acts : List ActivitySummary) (refId : String) : Prop :=
  (sortByDate acts).Perm acts
    ∧ List.Pairwise (fun a b => dateLe a b = true) (sortByDate acts)
    ∧ ∃ r, ∃ hr : r < (sortByDate acts).length,
        findRefIndex refId (sortByDate acts) = some r
          ∧ ((sortByDate acts).get ⟨r, hr⟩).id = refId
          ∧ (getActivitiesAround acts refId).reference_position = some r
          ∧ (getActivitiesAround acts refId).activities_before = some r
          ∧ (getActivitiesAround acts refId).activities_after
              = some ((sortByDate acts).length - r - 1)
          ∧ (getActivitiesAround acts refId).count = (sortByDate acts).length
          ∧ ∃ hlen : (getActivitiesAround acts refId).activities.length
              = (sortByDate acts).length,
            ∀ i (hi : i < (sortByDate acts).length),
              ((i < r →
                  ((getActivitiesAround acts refId).activities.get
                      ⟨i, by rw [hlen]; exact hi⟩).position = some "before"
                    ∧ ((getActivitiesAround acts refId).activities.get
                        ⟨i, by rw [hlen]; exact hi⟩).days_before = some (r - i)
                    ∧ ((getActivitiesAround acts refId).activities.get
                        ⟨i, by rw [hlen]; exact hi⟩).is_reference = false)
                ∧ (i = r →
                  ((getActivitiesAround acts refId).activities.get
                      ⟨i, by rw [hlen]; exact hi⟩).is_reference = true
                    ∧ ((getActivitiesAround acts refId).activities.get
                        ⟨i, by rw [hlen]; exact hi⟩).position = none
                    ∧ ((getActivitiesAround acts refId).activities.get
                        ⟨i, by rw [hlen]; exact hi⟩).days_before = none
                    ∧ ((getActivitiesAround acts refId).activities.get
                        ⟨i, by rw [hlen]; exact hi⟩).days_after = none)
                ∧ (r < i →
                  ((getActivitiesAround acts refId).activities.get
                      ⟨i, by rw [hlen]; exact hi⟩).position = some "after"
                    ∧ ((getActivitiesAround acts refId).activities.get
                        ⟨i, by rw [hlen]; exact hi⟩).days_after = some (i - r)
                    ∧ ((getActivitiesAround acts refId).activities.get
                        ⟨i, by rw [hlen]; exact hi⟩).is_reference = false))

/-- Statement of claim C7 for an activity list with no entry matching the
reference id: the search yields nothing, the aggregates are absent, and
every entry is emitted without any position annotation. -/
def AroundNoRefSpec (acts : List ActivitySummary) (refId : String) : Prop :=
  findRefIndex refId (sortByDate acts) = none
    ∧ (getActivitiesAround acts refId).reference_position = none
    ∧ (getActivitiesAround acts refId).activities_before = none
    ∧ (getActivitiesAround acts refId).activities_after = none
    ∧ (getActivitiesAround acts refId).count = acts.length
    ∧ ∀ ann ∈ (getActivitiesAround acts refId).activities,
        ann.position = none ∧ ann.days_before = none ∧ ann.days_after = none
          ∧ ann.is_reference = false

/-- Three demonstration activities on consecutive days (spec
section 8). -/
def demoActivities : List ActivitySummary :=
  [⟨"a1", "2024-01-01T08:00:00"⟩, ⟨"a2", "2024-01-02T08:00:00"⟩,
   ⟨"a3", "2024-01-03T08:00:00"⟩]

/-! ## Wellness output shaping

Embedded from `get_wellness_data` (`tools/wellness.py` lines 104-113) and
`get_wellness_for_date` (lines 299-310).  Both build a `training` section
by the repeated pattern `if record.X: training["X"] = round(record.X, 1)`
— a truthiness test, so a value of exactly 0 is omitted like an absent
value.  `get_wellness_data` emits ctl, atl and tsb only;
`get_wellness_for_date` additionally emits ramp_rate.  The source records
carry many more metrics (sleep, heart, body, ...) shaped the same way;
the embedding keeps the training-load fields the claim is about. -/

/-- Training-load fields of one wellness record. -/
structure WellnessRecord where
  ctl : Option ℚ
  atl : Option ℚ
  tsb : Option ℚ
  ramp_rate : Option ℚ
deriving DecidableEq

/-- The `if record.X: section["X"] = round(record.X, 1)` pattern: an
entry is produced only for a truthy (present and non-zero) value. -/
def truthyEntry (key : String) (o : Option ℚ) : List (String × ℚ) :=
  match o with
  | some q => if q ≠ 0 then [(key, pyRound1 q)] else []
  | none => []

/-- Training section built per record by `get_wellness_data`
(lines 104-113): ctl, atl, tsb — `ramp_rate` is not consulted at this
site. -/
def trainingSectionRecent (r : WellnessRecord) : List (String × ℚ) :=
  truthyEntry "ctl" r.ctl ++ truthyEntry "atl" r.atl ++ truthyEntry "tsb" r.tsb

/-- Training section built by `get_wellness_for_date` (lines 299-310):
ctl, atl, tsb and ramp_rate. -/
def trainingSectionForDate (w : WellnessRecord) : List (String × ℚ) :=
  truthyEntry "ctl" w.ctl ++ truthyEntry "atl" w.atl ++ truthyEntry "tsb" w.tsb
    ++ truthyEntry "ramp_rate" w.ramp_rate

/-- Statement of claim C10 as amended: in both wellness tools each
emitted training-load field is present exactly when the upstream value is
truthy (so a value of exactly 0 is omitted like an absent value and a
zero TSB never appears), but `get_wellness_data` never emits `ramp_rate`
at all — only `get_wellness_for_date` does. -/
def WellnessTrainingSpec (r : WellnessRecord) : Prop :=
  (("ctl" ∈ (trainingSectionRecent r).map Prod.fst) ↔ pyTruthy r.ctl = true)
    ∧ (("atl" ∈ (trainingSectionRecent r).map Prod.fst) ↔ pyTruthy r.atl = true)
    ∧ (("tsb" ∈ (trainingSectionRecent r).map Prod.fst) ↔ pyTruthy r.tsb = true)
    ∧ "ramp_rate" ∉ (trainingSectionRecent r).map Prod.fst
    ∧ (("ctl" ∈ (trainingSectionForDate r).map Prod.fst) ↔ pyTruthy r.ctl = true)
    ∧ (("atl" ∈ (trainingSectionForDate r).map Prod.fst) ↔ pyTruthy r.atl = true)
    ∧ (("tsb" ∈ (trainingSectionForDate r).map Prod.fst) ↔ pyTruthy r.tsb = true)
    ∧ (("ramp_rate" ∈ (trainingSectionForDate r).map Prod.fst) ↔ pyTruthy r.ramp_rate = true)
    ∧ (r.tsb = some 0 →
        "tsb" ∉ (trainingSectionRecent r).map Prod.fst
          ∧ "tsb" ∉ (trainingSectionForDate r).map Prod.fst)

end IcuMcp

namespace IcuMcp

/-! ## Helper lemmas -/

theorem pyInt_eq_floor {q : ℚ} (h : 0 ≤ q) : pyInt q = ⌊q⌋ := if_pos h

theorem sub_floor_nonneg (v : ℚ) : 0 ≤ v - ⌊v⌋ := by
  have := Int.fract_nonneg v
  rwa [Int.fract] at this

theorem formatPaceValue_eq_floor {v : ℚ} (h : 0 ≤ v) :
    formatPaceValue v = toString ⌊v⌋ ++ ":" ++ pad2 ⌊(v - ⌊v⌋) * 60⌋ ++ " /km" := by
  simp only [formatPaceValue]
  rw [pyInt_eq_floor h, pyInt_eq_floor (mul_nonneg (sub_floor_nonneg v) (by norm_num))]

theorem floor_fract_mul_sixty_nonneg (v : ℚ) : 0 ≤ ⌊(v - ⌊v⌋) * 60⌋ :=
  Int.floor_nonneg.mpr (mul_nonneg (sub_floor_nonneg v) (by norm_num))

theorem floor_fract_mul_sixty_le (v : ℚ) : ⌊(v - ⌊v⌋) * 60⌋ ≤ 59 := by
  have hlt : (v - ⌊v⌋) * 60 < 60 := by
    have := Int.fract_lt_one v
    rw [Int.fract] at this
    nlinarith
  have h60 : ⌊(v - ⌊v⌋) * 60⌋ < (60 : ℤ) := Int.floor_lt.mpr (by push_cast; linarith)
  linarith

theorem pyMinAux_mem {α : Type} (key : α → ℚ) (b : α) (l : List α) :
    pyMinAux key b l ∈ b :: l := by
  induction l generalizing b with
  | nil => simp [pyMinAux]
  | cons y ys ih =>
    simp only [pyMinAux]
    by_cases h : key y < key b
    · rw [if_pos h]
      exact List.mem_cons_of_mem b (ih y)
    · rw [if_neg h]
      rcases List.mem_cons.mp (ih b) with h1 | h1
      · rw [h1]
        exact List.mem_cons_self _ _
      · exact List.mem_cons_of_mem _ (List.mem_cons_of_mem _ h1)

theorem pyMinAux_le {α : Type} (key : α → ℚ) (b : α) (l : List α) :
    ∀ y ∈ b :: l, key (pyMinAux key b l) ≤ key y := by
  induction l generalizing b with
  | nil =>
    intro y hy
    rcases List.mem_cons.mp hy with rfl | hy
    · simp [pyMinAux]
    · cases hy
  | cons z zs ih =>
    intro y hy
    simp only [pyMinAux]
    by_cases h : key z < key b
    · rw [if_pos h]
      rcases List.mem_cons.mp hy with h1 | h1
      · calc key (pyMinAux key z zs) ≤ key z := ih z z (List.mem_cons_self _ _)
          _ ≤ key b := le_of_lt h
          _ = key y := by rw [h1]
      · exact ih z y h1
    · rw [if_neg h]
      rcases List.mem_cons.mp hy with h1 | h1
      · rw [h1]
        exact ih b b (List.mem_cons_self _ _)
      · rcases List.mem_cons.mp h1 with h2 | h2
        · rw [h2]
          exact le_trans (ih b b (List.mem_cons_self _ _)) (not_lt.mp h)
        · exact ih b y (List.mem_cons_of_mem _ h2)

theorem pyMinAux_first {α : Type} (key : α → ℚ) (b : α) (l : List α) :
    ∃ pre post, b :: l = pre ++ pyMinAux key b l :: post
      ∧ ∀ p ∈ pre, key (pyMinAux key b l) < key p := by
  induction l generalizing b with
  | nil => exact ⟨[], [], rfl, by simp⟩
  | cons z zs ih =>
    by_cases h : key z < key b
    · obtain ⟨pre, post, heq, hlt⟩ := ih z
      refine ⟨b :: pre, post, ?_, ?_⟩
      · simp only [pyMinAux, if_pos h, List.cons_append]
        exact congrArg (b :: ·) heq
      · intro p hp
        simp only [pyMinAux, if_pos h]
        rcases List.mem_cons.mp hp with rfl | hp'
        · exact lt_of_le_of_lt (pyMinAux_le key z zs z (by simp)) h
        · exact hlt p hp'
    · obtain ⟨pre, post, heq, hlt⟩ := ih b
      cases pre with
      | nil =>
        have hb : b = pyMinAux key b zs := by
          have := heq
          simp only [List.nil_append] at this
          exact (List.cons.injEq _ _ _ _).mp this |>.1

        refine ⟨[], z :: zs, ?_, by simp⟩
        simp only [pyMinAux, if_neg h, List.nil_append]
        exact congrArg (· :: z :: zs) hb
      | cons a pre' =>
        have heq' := heq
        simp only [List.cons_append] at heq'
        have ha : b = a := (List.cons.injEq _ _ _ _).mp heq' |>.1
        have hzs : zs = pre' ++ pyMinAux key b zs :: post :=
          (List.cons.injEq _ _ _ _).mp heq' |>.2
        refine ⟨b :: z :: pre', post, ?_, ?_⟩
        · simp only [pyMinAux, if_neg h, List.cons_append]
          exact congrArg (fun t => b :: z :: t) hzs
        · intro p hp
          simp only [pyMinAux, if_neg h]
          have hbmem : key (pyMinAux key b zs) < key b := ha ▸ hlt a (by simp)
          rcases List.mem_cons.mp hp with rfl | hp'
          · exact hbmem
          · rcases List.mem_cons.mp hp' with rfl | hp''
            · exact lt_of_lt_of_le hbmem (not_lt.mp h)
            · exact hlt p (List.mem_cons_of_mem _ hp'')

theorem mem_eq_of_nodup_snd {l : List (ℚ × String)} (h : (l.map Prod.snd).Nodup)
    {a b : ℚ × String} (ha : a ∈ l) (hb : b ∈ l) (hsnd : a.2 = b.2) : a = b := by
  induction l with
  | nil => cases ha
  | cons x xs ih =>
    rw [List.map_cons, List.nodup_cons] at h
    rcases List.mem_cons.mp ha with rfl | ha' <;> rcases List.mem_cons.mp hb with rfl | hb'
    · rfl
    · exact absurd (hsnd ▸ List.mem_map_of_mem Prod.snd hb') h.1
    · exact absurd (hsnd ▸ List.mem_map_of_mem Prod.snd ha') h.1
    · exact ih h.2 ha' hb'

theorem countP_one_decomp {α : Type} (p : α → Bool) {l : List α} (h : l.countP p = 1) :
    ∃ pre x post, l = pre ++ x :: post ∧ p x = true
      ∧ (∀ y ∈ pre, p y = false) ∧ (∀ y ∈ post, p y = false) := by
  induction l with
  | nil => simp at h
  | cons a l ih =>
    rw [List.countP_cons] at h
    by_cases hp : p a = true
    · rw [if_pos hp] at h
      have hl : l.countP p = 0 := by omega
      refine ⟨[], a, l, rfl, hp, by simp, ?_⟩
      intro y hy
      have := List.countP_eq_zero.mp hl y hy
      simpa using this
    · rw [if_neg hp] at h
      have hp' : p a = false := by simpa using hp
      have hl : l.countP p = 1 := by omega
      obtain ⟨pre, x, post, heq, hx, hpre, hpost⟩ := ih hl
      refine ⟨a :: pre, x, post, by rw [heq, List.cons_append], hx, ?_, hpost⟩
      intro y hy
      rcases List.mem_cons.mp hy with rfl | hy'
      · exact hp'
      · exact hpre y hy'

theorem findRefIndex_append {refId : String} (pre : List ActivitySummary)
    (x : ActivitySummary) (post : List ActivitySummary)
    (hpre : ∀ y ∈ pre, y.id ≠ refId) (hx : x.id = refId) :
    findRefIndex refId (pre ++ x :: post) = some pre.length := by
  induction pre with
  | nil => simp [findRefIndex, hx]
  | cons a pre' ih =>
    have ha : a.id ≠ refId := hpre a (List.mem_cons_self _ _)
    have hrest : findRefIndex refId (pre' ++ x :: post) = some pre'.length :=
      ih (fun y hy => hpre y (List.mem_cons_of_mem _ hy))
    simp [findRefIndex, ha, hrest]

theorem findRefIndex_eq_none {refId : String} {l : List ActivitySummary}
    (h : ∀ a ∈ l, a.id ≠ refId) : findRefIndex refId l = none := by
  induction l with
  | nil => rfl
  | cons a l ih =>
    have ha := h a (List.mem_cons_self _ _)
    simp [findRefIndex, ha, ih (fun y hy => h y (List.mem_cons_of_mem _ hy))]

theorem annotateAll_length (refId : String) (ri : Option ℕ) :
    ∀ (l : List ActivitySummary) (i : ℕ), (annotateAll refId ri i l).length = l.length := by
  intro l
  induction l with
  | nil => intro i; rfl
  | cons a l ih =>
    intro i
    simp [annotateAll, ih]

theorem annotateAll_get (refId : String) (ri : Option ℕ) :
    ∀ (l : List ActivitySummary) (i j : ℕ) (h : j < l.length)
      (h' : j < (annotateAll refId ri i l).length),
      (annotateAll refId ri i l).get ⟨j, h'⟩
        = annotateActivity refId ri (i + j) (l.get ⟨j, h⟩) := by
  intro l
  induction l with
  | nil =>
    intro i j h h'
    simp at h
  | cons a l ih =>
    intro i j h h'
    cases j with
    | zero => simp [annotateAll]
    | succ j' =>
      have h2 : j' < l.length := by
        simp at h
        omega
      simp only [annotateAll, List.get_cons_succ]
      rw [ih (i + 1) j' h2]
      congr 1
      omega

theorem annotateAll_mem (refId : String) (ri : Option ℕ) :
    ∀ (l : List ActivitySummary) (i : ℕ) (ann : AnnotatedActivity),
      ann ∈ annotateAll refId ri i l → ∃ a ∈ l, ∃ j, ann = annotateActivity refId ri j a := by
  intro l
  induction l with
  | nil =>
    intro i ann h
    cases h
  | cons a l ih =>
    intro i ann h
    rcases List.mem_cons.mp h with h1 | h1
    · exact ⟨a, List.mem_cons_self _ _, i, h1⟩
    · obtain ⟨b, hb, j, hj⟩ := ih (i + 1) ann h1
      exact ⟨b, List.mem_cons_of_mem _ hb, j, hj⟩

theorem sortByDate_sorted (acts : List ActivitySummary) :
    List.Pairwise (fun a b => dateLe a b = true) (sortByDate acts) := by
  apply List.sorted_mergeSort
  · intro a b c hab hbc
    simp only [dateLe, decide_eq_true_eq] at hab hbc ⊢
    exact le_trans hab hbc
  · intro a b
    simp only [dateLe]
    rcases le_total a.start_date_local b.start_date_local with h | h
    · simp [h]
    · simp [h]

theorem get_congr_list {α : Type} {l l' : List α} (h : l = l') {i : ℕ} (hi : i < l.length) :
    l.get ⟨i, hi⟩ = l'.get ⟨i, h ▸ hi⟩ := by
  subst h
  rfl

theorem get_append_middle {α : Type} (pre : List α) (x : α) (post : List α)
    (h : pre.length < (pre ++ x :: post).length) :
    (pre ++ x :: post).get ⟨pre.length, h⟩ = x := by
  rw [List.get_eq_getElem]
  rw [List.getElem_append_right (le_refl pre.length)]
  simp only [Nat.sub_self, List.getElem_cons_zero]

theorem get_append_pre {α : Type} (pre : List α) (x : α) (post : List α) {i : ℕ}
    (hi : i < pre.length) (h : i < (pre ++ x :: post).length) :
    (pre ++ x :: post).get ⟨i, h⟩ = pre.get ⟨i, hi⟩ := by
  rw [List.get_eq_getElem, List.get_eq_getElem]
  exact List.getElem_append_left hi

theorem get_append_post {α : Type} (pre : List α) (x : α) (post : List α) {i : ℕ}
    (hi : pre.length < i) (h : i < (pre ++ x :: post).length) :
    ∃ hj : i - pre.length - 1 < post.length,
      (pre ++ x :: post).get ⟨i, h⟩ = post.get ⟨i - pre.length - 1, hj⟩ := by
  have h1 : pre.length ≤ i := le_of_lt hi
  have hlen : i - pre.length - 1 < post.length := by
    have h2 := h
    simp [List.length_append] at h2
    omega
  refine ⟨hlen, ?_⟩
  rw [List.get_eq_getElem, List.get_eq_getElem]
  rw [List.getElem_append_right h1]
  obtain ⟨k, hk⟩ : ∃ k, i - pre.length = k + 1 := ⟨i - pre.length - 1, by omega⟩
  simp only [hk, List.getElem_cons_succ, Nat.add_sub_cancel]

/-! ## Theorems for the classifiers -/

/-- C3: for every TSB value the form classifier assigns exactly one of the
five statuses, and the five ranges partition the rationals with the stated
boundaries: very_fresh iff tsb > 20, recovered iff 5 < tsb ≤ 20, optimal
iff -10 < tsb ≤ 5, fatigued iff -30 < tsb ≤ -10, very_fatigued iff
tsb ≤ -30. -/
theorem classify_form_partition (tsb : ℚ) :
    ((classifyForm tsb).1 = "very_fresh" ↔ 20 < tsb)
      ∧ ((classifyForm tsb).1 = "recovered" ↔ 5 < tsb ∧ tsb ≤ 20)
      ∧ ((classifyForm tsb).1 = "optimal" ↔ -10 < tsb ∧ tsb ≤ 5)
      ∧ ((classifyForm tsb).1 = "fatigued" ↔ -30 < tsb ∧ tsb ≤ -10)
      ∧ ((classifyForm tsb).1 = "very_fatigued" ↔ tsb ≤ -30) := by
  unfold classifyForm
  split_ifs with h1 h2 h3 h4 <;>
    refine ⟨?_, ?_, ?_, ?_, ?_⟩ <;>
    constructor <;>
    intro h <;>
    first
      | rfl
      | exact absurd h (by decide)
      | constructor <;> linarith
      | linarith

/-- C4: for every ramp-rate value the ramp classifier assigns exactly one
of the five statuses, and the ranges partition the rationals at the
boundaries 8, 5, 0, -5. -/
theorem classify_ramp_rate_partition (rampRate : ℚ) :
    ((classifyRampRate rampRate).1 = "high_risk" ↔ 8 < rampRate)
      ∧ ((classifyRampRate rampRate).1 = "caution" ↔ 5 < rampRate ∧ rampRate ≤ 8)
      ∧ ((classifyRampRate rampRate).1 = "good" ↔ 0 < rampRate ∧ rampRate ≤ 5)
      ∧ ((classifyRampRate rampRate).1 = "declining" ↔ -5 < rampRate ∧ rampRate ≤ 0)
      ∧ ((classifyRampRate rampRate).1 = "declining_significantly" ↔ rampRate ≤ -5) := by
  unfold classifyRampRate
  split_ifs with h1 h2 h3 h4 <;>
    refine ⟨?_, ?_, ?_, ?_, ?_⟩ <;>
    constructor <;>
    intro h <;>
    first
      | rfl
      | exact absurd h (by decide)
      | constructor <;> linarith
      | linarith

end IcuMcp

namespace IcuMcp

/-- C2: for every pace or GAP histogram bin with non-negative bounds, each
bound is decomposed as minutes = truncation of the value and
seconds = truncation of (value - minutes) * 60 (truncation coincides with
floor on non-negative values), rendered with a zero-padded two-digit
seconds component that never rounds up to the next minute; 4.5 formats as
"4:30 /km" and 3.999 formats with seconds 59. -/
theorem pace_bin_formatting (b : HistogramBin) (hmin : 0 ≤ b.min) (hmax : 0 ≤ b.max) :
    PaceBinSpec b := by
  refine ⟨formatPaceValue_eq_floor hmin, formatPaceValue_eq_floor hmax,
    ⟨floor_fract_mul_sixty_nonneg _, floor_fract_mul_sixty_le _⟩,
    ⟨floor_fract_mul_sixty_nonneg _, floor_fract_mul_sixty_le _⟩,
    rfl, rfl, rfl, rfl, ?_, ?_⟩
  · norm_num [formatPaceValue, pyInt, pad2]
    decide
  · norm_num [formatPaceValue, pyInt, pad2]
    decide

/-- Witness for C2 at the concrete bin [4.5, 3.999). -/
theorem pace_bin_formatting_witness :
    PaceBinSpec ⟨9 / 2, 3999 / 1000, 10, none⟩ :=
  pace_bin_formatting ⟨9 / 2, 3999 / 1000, 10, none⟩ (by norm_num) (by norm_num)

end IcuMcp

namespace IcuMcp

/-- C5: the success-envelope builder includes the analysis key
(respectively metadata key) exactly when the argument is present and
non-empty; with data x=1 and an empty analysis mapping the envelope has
only the data key, and with analysis y=2 the analysis key is present and
equal to that mapping. -/
theorem build_success_optional_sections :
    (∀ (data : Json) (analysis metadata : Option (List (String × Json))) (qt : Option String),
      (("analysis" ∈ jsonKeys (buildSuccessEnvelope data analysis metadata qt))
          ↔ ∃ l, analysis = some l ∧ l ≠ [])
        ∧ (("metadata" ∈ jsonKeys (buildSuccessEnvelope data analysis metadata qt))
          ↔ ∃ l, metadata = some l ∧ l ≠ [])
        ∧ "data" ∈ jsonKeys (buildSuccessEnvelope data analysis metadata qt))
    ∧ jsonKeys (buildSuccessEnvelope (Json.obj [("x", Json.num 1)]) (some []) none none)
        = ["data"]
    ∧ jsonLookup "analysis"
        (buildSuccessEnvelope (Json.obj [("x", Json.num 1)]) (some [("y", Json.num 2)]) none none)
        = some (Json.obj [("y", Json.num 2)]) := by
  refine ⟨?_, rfl, rfl⟩
  intro data analysis metadata qt
  refine ⟨?_, ?_, ?_⟩ <;>
    rcases analysis with _ | ⟨_ | ⟨f, l⟩⟩ <;>
    rcases metadata with _ | ⟨_ | ⟨g, m⟩⟩ <;>
    rcases qt with _ | q <;>
    simp [buildSuccessEnvelope, jsonKeys]

/-- C8 counterexample: in a gear.py tool an unclassified exception (here
with text boom) is converted to an envelope whose error_type is
unexpected_error, not internal_error, refuting the claim that every tool
function emits internal_error for unclassified exceptions. -/
theorem gear_unexpected_error_counterexample :
    runToolExceptGear (.error (.other "boom")) = buildErrorResponse "boom" "unexpected_error" none
      ∧ jsonLookup "error_type" (buildErrorEnvelope "boom" "unexpected_error" none)
          = some (Json.str "unexpected_error")
      ∧ "unexpected_error" ≠ "internal_error" :=
  ⟨rfl, rfl, by decide⟩

/-- C8 as amended: at every tool boundary a classified API error becomes
an api_error envelope with the message passed through verbatim, and any
other exception is caught and converted to an error envelope — with
error_type internal_error and an `Unexpected error: ` prefix in the tools
outside gear.py, and error_type unexpected_error with the plain str(e)
text in the six gear.py tools; in both variants every body outcome yields
a string (no exception escapes). -/
theorem tool_boundary_error_handling :
    (∀ m : String,
      runToolExcept (.error (.icuApiError m)) = buildErrorResponse m "api_error" none
        ∧ runToolExceptGear (.error (.icuApiError m)) = buildErrorResponse m "api_error" none
        ∧ jsonLookup "error" (buildErrorEnvelope m "api_error" none) = some (Json.str m)
        ∧ jsonLookup "error_type" (buildErrorEnvelope m "api_error" none)
            = some (Json.str "api_error"))
      ∧ (∀ m : String,
        runToolExcept (.error (.other m))
            = buildErrorResponse ("Unexpected error: " ++ m) "internal_error" none
          ∧ jsonLookup "error_type"
              (buildErrorEnvelope ("Unexpected error: " ++ m) "internal_error" none)
              = some (Json.str "internal_error"))
      ∧ (∀ m : String,
        runToolExceptGear (.error (.other m)) = buildErrorResponse m "unexpected_error" none
          ∧ jsonLookup "error" (buildErrorEnvelope m "unexpected_error" none)
              = some (Json.str m)
          ∧ jsonLookup "error_type" (buildErrorEnvelope m "unexpected_error" none)
              = some (Json.str "unexpected_error"))
      ∧ (∀ body : Except ToolExn String, ∃ s : String, runToolExcept body = s)
      ∧ (∀ body : Except ToolExn String, ∃ s : String, runToolExceptGear body = s) :=
  ⟨fun _ => ⟨rfl, rfl, rfl, rfl⟩, fun _ => ⟨rfl, rfl⟩, fun _ => ⟨rfl, rfl, rfl⟩,
    fun body => ⟨runToolExcept body, rfl⟩, fun body => ⟨runToolExceptGear body, rfl⟩⟩

/-- C9: validation failures (malformed date, invalid time_period, no-op
update) return a validation_error envelope before the API client is
reached. -/
theorem validation_before_api : ValidationBeforeApiSpec := by
  refine ⟨?_, ?_, ?_, ?_⟩
  · intro date a h
    simp [updateWellnessPrelude, h]
  · intro date h
    simp [updateWellnessPrelude, h, emptyUpdateWellnessArgs, updateWellnessPayloadFields]
  · intro tp h h1 h2 h3 h4
    simp [getHrCurvesPrelude, h, h1, h2, h3, h4]
  · intro date a p h
    by_cases hd : strptimeYmdOk date = true
    · exact hd
    · have hf : strptimeYmdOk date = false := by
        simpa using hd
      simp [updateWellnessPrelude, hf] at h

/-- Witness for C9 at concrete malformed inputs. -/
theorem validation_before_api_witness :
    updateWellnessPrelude "not-a-date" emptyUpdateWellnessArgs
        = .earlyReturn (buildErrorResponse "Invalid date format. Please use YYYY-MM-DD format."
            "validation_error" none)
      ∧ updateWellnessPrelude "2024-02-29" emptyUpdateWellnessArgs
        = .earlyReturn (buildErrorResponse
            "No wellness data provided. Please specify at least one metric to update."
            "validation_error" none)
      ∧ getHrCurvesPrelude none (some "decade")
        = .earlyReturn (buildErrorResponse
            "Invalid time_period. Use \x27week\x27, \x27month\x27, \x27year\x27, or \x27all\x27"
            "validation_error" none) :=
  ⟨validation_before_api.1 "not-a-date" emptyUpdateWellnessArgs (by decide),
    validation_before_api.2.1 "2024-02-29" (by decide),
    validation_before_api.2.2.1 "decade" (by decide) (by decide) (by decide) (by decide)
      (by decide)⟩

end IcuMcp

namespace IcuMcp

/-- C1: for every non-empty curve and every key-duration pair, the
matcher selects the curve point minimizing the distance of its duration
to the target (first minimal element in input order on ties), and the
label appears in the peak-efforts mapping exactly when the selected point
is within the 10 percent relative tolerance. -/
theorem peak_effort_matcher (data : List CurvePoint) (kd : List (ℚ × String))
    (target : ℚ) (label : String) (hne : data ≠ []) (hmem : (target, label) ∈ kd)
    (hnodup : (kd.map Prod.snd).Nodup) : PeakEffortSpec data kd target label := by
  obtain ⟨x, xs, rfl⟩ := List.exists_cons_of_ne_nil hne
  refine ⟨pyMinAux (fun p => |p.secs - target|) x xs, rfl,
    pyMinAux_mem _ x xs, pyMinAux_le _ x xs, pyMinAux_first _ x xs, ?_, ?_⟩
  · intro hin
    obtain ⟨pair, hpair, hfst⟩ := List.mem_map.mp hin
    obtain ⟨sd, hsd, hf⟩ := List.mem_filterMap.mp hpair
    simp only [closestPoint, pyMin] at hf
    by_cases hc : |(pyMinAux (fun p => |p.secs - sd.1|) x xs).secs - sd.1| ≤ sd.1 * (1 / 10)
    · rw [if_pos hc] at hf
      have hpair' : pair = (sd.2, pyMinAux (fun p => |p.secs - sd.1|) x xs) :=
        (Option.some.injEq _ _).mp hf |>.symm
      have hsnd : sd.2 = label := by
        rw [hpair'] at hfst
        exact hfst
      have hsd' : sd = (target, label) :=
        mem_eq_of_nodup_snd hnodup hsd hmem hsnd
      rw [hsd'] at hc
      exact hc
    · rw [if_neg hc] at hf
      cases hf
  · intro htol
    refine List.mem_map.mpr ⟨(label, pyMinAux (fun p => |p.secs - target|) x xs), ?_, rfl⟩
    refine List.mem_filterMap.mpr ⟨(target, label), hmem, ?_⟩
    simp only [closestPoint, pyMin]
    rw [if_pos htol]

/-- Witness for C1: the demonstration curve with points at 58 s and 65 s,
the heart-rate key-duration table, and the 1-minute target. -/
theorem peak_effort_matcher_witness :
    PeakEffortSpec demoCurve hrKeyDurations 60 "1_min" :=
  peak_effort_matcher demoCurve hrKeyDurations 60 "1_min" (by decide) (by decide) (by decide)

end IcuMcp

namespace IcuMcp

/-- C6: for an activity list in which exactly one entry carries the
reference id, the positioner sorts ascending by start_date_local, finds
the reference index, annotates earlier entries as before (with
days_before = reference_index - index), later entries as after (with
days_after = index - reference_index), marks the reference entry itself
and emits the aggregate counts. -/
theorem activities_around_positions (acts : List ActivitySummary) (refId : String)
    (hcount : acts.countP (fun a => decide (a.id = refId)) = 1) :
    AroundRefSpec acts refId := by
  have hperm : (sortByDate acts).Perm acts := List.mergeSort_perm acts dateLe
  have hsorted := sortByDate_sorted acts
  have hcount' : (sortByDate acts).countP (fun a => decide (a.id = refId)) = 1 :=
    (hperm.countP_eq _).trans hcount
  obtain ⟨pre, x, post, heq, hx, hpre, hpost⟩ := countP_one_decomp _ hcount'
  have hx' : x.id = refId := of_decide_eq_true hx
  have hpre' : ∀ y ∈ pre, y.id ≠ refId := fun y hy => of_decide_eq_false (hpre y hy)
  have hpost' : ∀ y ∈ post, y.id ≠ refId := fun y hy => of_decide_eq_false (hpost y hy)
  have hfind : findRefIndex refId (sortByDate acts) = some pre.length := by
    rw [heq]
    exact findRefIndex_append pre x post hpre' hx'
  have hslen : (sortByDate acts).length = pre.length + post.length + 1 := by
    rw [heq, List.length_append, List.length_cons]
    omega
  have hr : pre.length < (sortByDate acts).length := by omega
  have hgetr : ((sortByDate acts).get ⟨pre.length, hr⟩).id = refId := by
    rw [get_congr_list heq, get_append_middle]
    exact hx'
  refine ⟨hperm, hsorted, pre.length, hr, hfind, hgetr, ?_, ?_, ?_, ?_, ?_⟩
  · simp [getActivitiesAround, hfind]
  · simp [getActivitiesAround, hfind]
  · simp [getActivitiesAround, hfind]
  · simp [getActivitiesAround]
  · have hact : (getActivitiesAround acts refId).activities
        = annotateAll refId (some pre.length) 0 (sortByDate acts) := by
      show annotateAll refId (findRefIndex refId (sortByDate acts)) 0 (sortByDate acts) = _
      rw [hfind]
    have hlen : (getActivitiesAround acts refId).activities.length
        = (sortByDate acts).length := by
      rw [hact, annotateAll_length]
    refine ⟨hlen, ?_⟩
    intro i hi
    have hget : (getActivitiesAround acts refId).activities.get ⟨i, by rw [hlen]; exact hi⟩
        = annotateActivity refId (some pre.length) i ((sortByDate acts).get ⟨i, hi⟩) := by
      rw [get_congr_list hact]
      rw [annotateAll_get refId (some pre.length) (sortByDate acts) 0 i hi]
      simp only [Nat.zero_add]
    rw [hget]
    refine ⟨?_, ?_, ?_⟩
    · intro hilt
      have hid : ((sortByDate acts).get ⟨i, hi⟩).id ≠ refId := by
        rw [get_congr_list heq, get_append_pre pre x post hilt]
        exact hpre' _ (List.get_mem _ _ _)
      rw [List.get_eq_getElem] at hid
      simp [annotateActivity, hid, hilt]
    · intro hieq
      have hid : ((sortByDate acts).get ⟨i, hi⟩).id = refId := by
        subst hieq
        rw [get_congr_list heq, get_append_middle]
        exact hx'
      rw [List.get_eq_getElem] at hid
      simp [annotateActivity, hid]
    · intro hgt
      have hid : ((sortByDate acts).get ⟨i, hi⟩).id ≠ refId := by
        rw [get_congr_list heq]
        obtain ⟨hj, hjeq⟩ := get_append_post pre x post hgt (heq ▸ hi)
        rw [hjeq]
        exact hpost' _ (List.get_mem _ _ _)
      rw [List.get_eq_getElem] at hid
      have hnlt : ¬i < pre.length := by omega
      simp [annotateActivity, hid, hnlt]

/-- Witness for C6 at the three-day demonstration list with the middle
entry as reference. -/
theorem activities_around_positions_witness : AroundRefSpec demoActivities "a2" :=
  activities_around_positions demoActivities "a2" (by decide)

/-- C7: when no entry carries the reference id, the positioner emits all
entries with no position annotation and succeeds (no aggregates, no
error). -/
theorem activities_around_no_reference (acts : List ActivitySummary) (refId : String)
    (_hne : acts ≠ []) (hnone : ∀ a ∈ acts, a.id ≠ refId) : AroundNoRefSpec acts refId := by
  have hperm : (sortByDate acts).Perm acts := List.mergeSort_perm acts dateLe
  have hnone' : ∀ a ∈ sortByDate acts, a.id ≠ refId := fun a ha => hnone a (hperm.mem_iff.mp ha)
  have hfind : findRefIndex refId (sortByDate acts) = none := findRefIndex_eq_none hnone'
  refine ⟨hfind, ?_, ?_, ?_, ?_, ?_⟩
  · simp [getActivitiesAround, hfind]
  · simp [getActivitiesAround, hfind]
  · simp [getActivitiesAround, hfind]
  · simpa [getActivitiesAround] using hperm.length_eq
  · intro ann hann
    have hact : (getActivitiesAround acts refId).activities
        = annotateAll refId none 0 (sortByDate acts) := by
      show annotateAll refId (findRefIndex refId (sortByDate acts)) 0 (sortByDate acts) = _
      rw [hfind]
    rw [hact] at hann
    obtain ⟨a, ha, j, hj⟩ := annotateAll_mem refId none (sortByDate acts) 0 ann hann
    rw [hj]
    simp [annotateActivity, hnone' a ha]

/-- Witness for C7 at the demonstration list with an unknown reference
id. -/
theorem activities_around_no_reference_witness : AroundNoRefSpec demoActivities "zzz" :=
  activities_around_no_reference demoActivities "zzz" (by decide) (by decide)

end IcuMcp

namespace IcuMcp

theorem exists_mem_truthyEntry (k key : String) (o : Option ℚ) :
    (∃ x, (k, x) ∈ truthyEntry key o) ↔ (k = key ∧ pyTruthy o = true) := by
  cases o with
  | none => simp [truthyEntry, pyTruthy]
  | some q =>
    by_cases hq : q = 0
    · simp [truthyEntry, pyTruthy, hq]
    · simp [truthyEntry, pyTruthy, hq]

/-- C10 counterexample: a record whose ramp_rate is truthy (value 3) is
shaped by get_wellness_data without any ramp_rate entry in its training
section, contradicting the claim that every training-load field (ctl,
atl, tsb, ramp_rate) is included in the wellness tools exactly when
truthy. -/
theorem wellness_ramp_rate_counterexample :
    pyTruthy (WellnessRecord.mk none none none (some 3)).ramp_rate = true
      ∧ "ramp_rate" ∉ (trainingSectionRecent ⟨none, none, none, some 3⟩).map Prod.fst := by
  constructor
  · decide
  · decide

/-- C10 as amended: each training-load field emitted by the wellness
tools is present exactly when the upstream value is truthy (a value of
exactly 0 is omitted like an absent value, so a zero TSB never appears),
with ramp_rate emitted only by get_wellness_for_date and never by
get_wellness_data. -/
theorem wellness_training_truthiness (r : WellnessRecord) : WellnessTrainingSpec r := by
  refine ⟨?_, ?_, ?_, ?_, ?_, ?_, ?_, ?_, ?_⟩
  · simp [trainingSectionRecent, exists_mem_truthyEntry]
  · simp [trainingSectionRecent, exists_mem_truthyEntry]
  · simp [trainingSectionRecent, exists_mem_truthyEntry]
  · intro hmem
    simp [trainingSectionRecent, exists_mem_truthyEntry] at hmem
  · simp [trainingSectionForDate, exists_mem_truthyEntry]
  · simp [trainingSectionForDate, exists_mem_truthyEntry]
  · simp [trainingSectionForDate, exists_mem_truthyEntry]
  · simp [trainingSectionForDate, exists_mem_truthyEntry]
  · intro h
    constructor
    · intro hmem
      simp [trainingSectionRecent, exists_mem_truthyEntry, h, pyTruthy] at hmem
    · intro hmem
      simp [trainingSectionForDate, exists_mem_truthyEntry, h, pyTruthy] at hmem

/-- Witness for the amended C10 at a record with TSB exactly 0. -/
theorem wellness_training_truthiness_witness :
    "tsb" ∉ (trainingSectionRecent ⟨none, none, some 0, none⟩).map Prod.fst
      ∧ "tsb" ∉ (trainingSectionForDate ⟨none, none, some 0, none⟩).map Prod.fst :=
  (wellness_training_truthiness ⟨none, none, some 0, none⟩).2.2.2.2.2.2.2.2 rfl

end IcuMcp
